import Mathlib

/-!
Verification of the Quiz-LM filter engine (src/js/filter.js) and the
database initialization module (src/unnamed/part_000, "database.js").

The persistence layer (Dexie/IndexedDB) is an external collaborator: the
question store is modelled as a `List Question`, a query collection as a
filtered list, `where(path).anyOf(values)` as a membership filter on the
indexed field (for the multi-entry `tags` index: some tag is a member),
and `uniqueKeys(path)` as the distinct field values of the records in the
collection.  JavaScript values selected in the UI are dynamically typed
(strings from checkbox values, numbers from numeric index keys), so option
and selection values are modelled by the sum type `Value`.
-/

namespace QuizLM

/-- A dynamically-typed JavaScript value as it occurs in filter selections
and option lists: a string or an integer (exam years are numbers). -/
inductive Value where
  | vstr : String → Value
  | vint : Int → Value
deriving DecidableEq, Repr

/-- JavaScript truthiness of a `Value` (`.filter(Boolean)`): the empty
string and the number 0 are falsy. -/
def Value.truthy : Value → Bool
  | .vstr s => !s.isEmpty
  | .vint n => n != 0

/-- The string rendering JavaScript's `String()` gives a value; used by
`Array.prototype.sort()` (default comparator) and object-key coercion. -/
def Value.render : Value → String
  | .vstr s => s
  | .vint n => toString n

/-- The eight filter keys (`config.filterKeys`).  Modelled from the spec:
`config` lives in `state.js`, which is not part of the sources; the spec
fixes the eight keys `subject, topic, subTopic, difficulty, questionType,
examName, examYear, tags`. -/
inductive FilterKey where
  | subject | topic | subTopic | difficulty | questionType
  | examName | examYear | tags
deriving DecidableEq, Repr, Fintype

/-- `config.filterKeys` as a list, in spec order. -/
def filterKeys : List FilterKey :=
  [.subject, .topic, .subTopic, .difficulty, .questionType,
   .examName, .examYear, .tags]

theorem mem_filterKeys (k : FilterKey) : k ∈ filterKeys := by
  cases k <;> decide

/-- A question record.  The nested JSON paths `classification.subject`,
`classification.topic`, `classification.subTopic`,
`properties.difficulty`, `properties.questionType`,
`sourceInfo.examName`, `sourceInfo.examYear` and the multi-valued `tags`
array are flattened into one structure. -/
structure Question where
  id : Nat
  subject : String
  topic : String
  subTopic : String
  difficulty : String
  questionType : String
  examName : String
  examYear : Int
  tags : List String
deriving DecidableEq, Repr

/-- The values of a question under the index path of a filter key
(`getQuestionValuePath`); scalar fields give one value, the multi-entry
`tags` index gives one value per tag. -/
def Question.fieldValues (q : Question) : FilterKey → List Value
  | .subject => [.vstr q.subject]
  | .topic => [.vstr q.topic]
  | .subTopic => [.vstr q.subTopic]
  | .difficulty => [.vstr q.difficulty]
  | .questionType => [.vstr q.questionType]
  | .examName => [.vstr q.examName]
  | .examYear => [.vint q.examYear]
  | .tags => q.tags.map .vstr

/-- `state.selectedFilters`: one array of selected values per filter key. -/
structure FilterState where
  subject : List Value
  topic : List Value
  subTopic : List Value
  difficulty : List Value
  questionType : List Value
  examName : List Value
  examYear : List Value
  tags : List Value
deriving DecidableEq, Repr

/-- Read the selection array of one key. -/
def FilterState.sel (fs : FilterState) : FilterKey → List Value
  | .subject => fs.subject
  | .topic => fs.topic
  | .subTopic => fs.subTopic
  | .difficulty => fs.difficulty
  | .questionType => fs.questionType
  | .examName => fs.examName
  | .examYear => fs.examYear
  | .tags => fs.tags

/-- Replace the selection array of one key. -/
def FilterState.setSel (fs : FilterState) (k : FilterKey) (l : List Value) :
    FilterState :=
  match k with
  | .subject => { fs with subject := l }
  | .topic => { fs with topic := l }
  | .subTopic => { fs with subTopic := l }
  | .difficulty => { fs with difficulty := l }
  | .questionType => { fs with questionType := l }
  | .examName => { fs with examName := l }
  | .examYear => { fs with examYear := l }
  | .tags => { fs with tags := l }

/-- `resetFilters` (filter.js:323-329): every selection set becomes empty.
Also the initial Filter State on load. -/
def resetFilters : FilterState :=
  { subject := [], topic := [], subTopic := []
    difficulty := [], questionType := []
    examName := [], examYear := []
    tags := [] }

/-- Leading decimal-digit run of a character list, as a number;
`none` when the list does not start with a digit. -/
def leadDigits (cs : List Char) : Option Nat :=
  let ds := cs.takeWhile Char.isDigit
  if ds.isEmpty then none
  else some (ds.foldl (fun acc c => 10 * acc + (c.toNat - 48)) 0)

/-- JavaScript's `parseInt(s, 10)`: skip leading whitespace, optional
sign, then the leading digit run; `none` models `NaN`. -/
def parseIntJS (s : String) : Option Int :=
  let cs := s.toList.dropWhile fun c =>
    c = ' ' || c = '\t' || c = '\n' || c = '\r'
  match cs with
  | '-' :: rest => (leadDigits rest).map fun n => -(n : Int)
  | '+' :: rest => (leadDigits rest).map fun n => (n : Int)
  | _ => (leadDigits cs).map fun n => (n : Int)

/-- `parseInt(y, 10)` applied to a selection value: numbers pass through
(parseInt of a number's string rendering is that number); strings are
parsed; `none` models `NaN`, which is a key equal to no stored year, so
dropping it (`filterMap`) matches the same record set. -/
def parseIntValue : Value → Option Value
  | .vint n => some (.vint n)
  | .vstr s => (parseIntJS s).map .vint

/-- The selection values actually used to constrain a key: `examYear`
selections are normalized through `parseInt` (filter.js:223,247), every
other key uses its selection verbatim. -/
def FilterState.normSel (fs : FilterState) (k : FilterKey) : List Value :=
  if k = .examYear then fs.examYear.filterMap parseIntValue else fs.sel k

/-- `applyFilters` (filter.js:201-234): starting from the whole store,
chain one membership constraint per non-empty selection, in source
order. -/
def applyFilters (store : List Question) (filters : FilterState) :
    List Question :=
  let query := store
  let query := if filters.subject.isEmpty then query else
    query.filter fun q => filters.subject.contains (Value.vstr q.subject)
  let query := if filters.topic.isEmpty then query else
    query.filter fun q => filters.topic.contains (Value.vstr q.topic)
  let query := if filters.subTopic.isEmpty then query else
    query.filter fun q => filters.subTopic.contains (Value.vstr q.subTopic)
  let query := if filters.difficulty.isEmpty then query else
    query.filter fun q => filters.difficulty.contains (Value.vstr q.difficulty)
  let query := if filters.questionType.isEmpty then query else
    query.filter fun q => filters.questionType.contains (Value.vstr q.questionType)
  let query := if filters.examName.isEmpty then query else
    query.filter fun q => filters.examName.contains (Value.vstr q.examName)
  let query := if filters.examYear.isEmpty then query else
    query.filter fun q =>
      (filters.examYear.filterMap parseIntValue).contains (Value.vint q.examYear)
  let query := if filters.tags.isEmpty then query else
    query.filter fun q => q.tags.any fun t => filters.tags.contains (Value.vstr t)
  query

/-- One key's membership constraint as a Boolean predicate: an empty
selection imposes no constraint, otherwise some field value must be a
member of the (normalized) selection. -/
def matchesKey (fs : FilterState) (k : FilterKey) (q : Question) : Bool :=
  (fs.sel k).isEmpty || (q.fieldValues k).any fun v => (fs.normSel k).contains v

/-- The spec's characterization of the Filtered Master List: for every
filter key with a non-empty selection, some field value of the record
lies in that key's selected set. -/
def SpecMatches (fs : FilterState) (q : Question) : Prop :=
  ∀ k : FilterKey, fs.sel k ≠ [] → ∃ v ∈ q.fieldValues k, v ∈ fs.normSel k

instance (fs : FilterState) (q : Question) : Decidable (SpecMatches fs q) :=
  inferInstanceAs (Decidable
    (∀ k : FilterKey, fs.sel k ≠ [] → ∃ v ∈ q.fieldValues k, v ∈ fs.normSel k))

/-- `handleSelectionChange` (filter.js:150-167): toggle the value in the
key's selection array (`splice` at the first index, or `push`), then
cascade: a `subject` change clears `topic` and `subTopic`, a `topic`
change clears `subTopic`.  The subsequent recomputation
(`onFilterStateChange`) only derives data and is modelled by the other
operations. -/
def handleSelectionChange (fs : FilterState) (filterKey : FilterKey)
    (value : Value) : FilterState :=
  let selectedValues := fs.sel filterKey
  let selectedValues :=
    if selectedValues.contains value then selectedValues.erase value
    else selectedValues ++ [value]
  let fs := fs.setSel filterKey selectedValues
  if filterKey = .subject then { fs with topic := [], subTopic := [] }
  else if filterKey = .topic then { fs with subTopic := [] }
  else fs

/-- The distinct values of one indexed field over a record collection
(Dexie's `uniqueKeys(path)` on a filtered collection). -/
def uniqueKeysOf (records : List Question) (k : FilterKey) : List Value :=
  (records.flatMap fun q => q.fieldValues k).dedup

/-- The default JavaScript `Array.prototype.sort()`: elements are
compared by their string renderings. -/
def valLE (a b : Value) : Prop := a.render ≤ b.render

instance : DecidableRel valLE := fun a b =>
  inferInstanceAs (Decidable (a.render ≤ b.render))

instance : IsTotal Value valLE := ⟨fun a b => le_total a.render b.render⟩

instance : IsTrans Value valLE := ⟨fun _ _ _ hab hbc => le_trans hab hbc⟩

/-- `Array.from(keys).sort()` as a sorting function on value lists. -/
def sortJS (l : List Value) : List Value := l.insertionSort valLE

/-- The dependent-filter UI state produced by `updateDependentFilters`:
whether the `topic` and `subTopic` dropdowns are disabled and which
option values their lists hold (`list.innerHTML = ''` when disabled). -/
structure DependentUI where
  topicDisabled : Bool
  topicOptions : List Value
  subTopicDisabled : Bool
  subTopicOptions : List Value
deriving DecidableEq, Repr

/-- `updateDependentFilters` (filter.js:176-199): with no subject
selected the topic control is disabled and emptied; otherwise the topic
options are the distinct `classification.topic` keys of records whose
subject is selected, sorted.  `subTopic` analogously requires subject
and topic membership, gated on a non-empty topic selection. -/
def updateDependentFilters (store : List Question) (fs : FilterState) :
    DependentUI :=
  let selectedSubjects := fs.subject
  let selectedTopics := fs.topic
  let topicPart :=
    if selectedSubjects.isEmpty then (true, ([] : List Value))
    else
      let relevantTopics := uniqueKeysOf
        (store.filter fun q => selectedSubjects.contains (Value.vstr q.subject))
        .topic
      (false, sortJS relevantTopics)
  let subTopicPart :=
    if selectedTopics.isEmpty then (true, ([] : List Value))
    else
      let relevantSubTopics := uniqueKeysOf
        ((store.filter fun q =>
            selectedSubjects.contains (Value.vstr q.subject)).filter
          fun q => selectedTopics.contains (Value.vstr q.topic))
        .subTopic
      (false, sortJS relevantSubTopics)
  ⟨topicPart.1, topicPart.2, subTopicPart.1, subTopicPart.2⟩

/-- The base query of `updateAllFilterCountsAndAvailability`
(filter.js:239-250): the conjunction of every *other* key's membership
constraint, the counted key itself unconstrained. -/
def baseMatches (fs : FilterState) (filterKey : FilterKey) (q : Question) :
    Bool :=
  filterKeys.all fun otherKey => otherKey == filterKey || matchesKey fs otherKey q

/-- `allOptionsForThisKey` (filter.js:254): the distinct keys of the
counted field reachable under the base query, falsy values dropped
(`.filter(Boolean)`). -/
def allOptionsFor (store : List Question) (fs : FilterState)
    (filterKey : FilterKey) : List Value :=
  (uniqueKeysOf (store.filter (baseMatches fs filterKey)) filterKey).filter
    Value.truthy

/-- `parseInt(String(option), 10)` on an option value (filter.js:258):
the identity on numbers; an unparseable string gives `NaN`, which as a
query key matches no stored year, so keeping the original string value
(equal to no `examYear` field value) is match-equivalent. -/
def valueForQuery (filterKey : FilterKey) (option : Value) : Value :=
  if filterKey = .examYear then
    match parseIntValue option with
    | some v => v
    | none => option
  else option

/-- One option's count (filter.js:257-259): the base query further
constrained to that single value. -/
def countFor (store : List Question) (fs : FilterState)
    (filterKey : FilterKey) (option : Value) : Nat :=
  ((store.filter (baseMatches fs filterKey)).filter fun q =>
    (q.fieldValues filterKey).contains (valueForQuery filterKey option)).length

/-- The `counts` map one pass of `updateAllFilterCountsAndAvailability`
(filter.js:236-273) hands to `updateFilterUI` for one key. -/
def updateAllFilterCountsAndAvailability (store : List Question)
    (fs : FilterState) (filterKey : FilterKey) : List (Value × Nat) :=
  (allOptionsFor store fs filterKey).map fun option =>
    (option, countFor store fs filterKey option)

/-- `counts[value] || 0` (filter.js:282,295): the count recorded for a
value, defaulting to 0 when absent (a recorded 0 also displays as 0). -/
def countsLookup (counts : List (Value × Nat)) (v : Value) : Nat :=
  (counts.lookup v).getD 0

/-- The spec's base constraint for counting under key `K`: every other
key's membership constraint, `K` itself unconstrained. -/
def SpecBase (fs : FilterState) (filterKey : FilterKey) (q : Question) :
    Prop :=
  ∀ k : FilterKey, k ≠ filterKey → fs.sel k ≠ [] →
    ∃ v ∈ q.fieldValues k, v ∈ fs.normSel k

instance (fs : FilterState) (filterKey : FilterKey) (q : Question) :
    Decidable (SpecBase fs filterKey q) :=
  inferInstanceAs (Decidable (∀ k : FilterKey, k ≠ filterKey → fs.sel k ≠ [] →
    ∃ v ∈ q.fieldValues k, v ∈ fs.normSel k))

/-- The spec's count for option `v` of key `K`: the number of records
matching every other key's constraint and carrying `v` on `K`'s field. -/
def specCount (store : List Question) (fs : FilterState)
    (filterKey : FilterKey) (v : Value) : Nat :=
  (store.filter fun q =>
    decide (SpecBase fs filterKey q) && (q.fieldValues filterKey).contains v).length

/-- Which control renders a key's options (`populateFilterControls`,
filter.js:83-96): `difficulty` and `questionType` are segmented button
controls, every other key a multiselect checkbox list. -/
inductive ControlKind where
  | multiselect | segmented
deriving DecidableEq, Repr

/-- The control kind used for each filter key. -/
def controlKindOf : FilterKey → ControlKind
  | .difficulty => .segmented
  | .questionType => .segmented
  | _ => .multiselect

/-- The UI state of one rendered option: its value, checkbox state,
disabled flag, count label, visibility, and segmented `active` class. -/
structure OptionUI where
  value : Value
  checked : Bool
  disabled : Bool
  countText : String
  visible : Bool
  active : Bool
deriving DecidableEq, Repr

/-- The `(${count})` label text. -/
def countLabel (count : Nat) : String := "(" ++ toString count ++ ")"

/-- `updateFilterUI` on one rendered option (filter.js:276-301): a
multiselect item gets its count label and is disabled exactly when its
count is 0 and its checkbox is unchecked; a segmented button gets its
count label and `active` class, its disabled state untouched. -/
def updateFilterUIOption (kind : ControlKind) (selected : List Value)
    (counts : List (Value × Nat)) (o : OptionUI) : OptionUI :=
  let count := countsLookup counts o.value
  match kind with
  | .multiselect =>
      let isDisabled := count == 0 && !o.checked
      { o with countText := countLabel count, disabled := isDisabled }
  | .segmented =>
      { o with countText := countLabel count,
               active := selected.contains o.value }

/-- `updateFilterUI` (filter.js:276-301) over a key's rendered option
list. -/
def updateFilterUI (kind : ControlKind) (selected : List Value)
    (counts : List (Value × Nat)) (options : List OptionUI) : List OptionUI :=
  options.map (updateFilterUIOption kind selected counts)

/-- The hardcoded required database version (`DB_VERSION`,
database.js). -/
def DB_VERSION : String := "1.0"

/-- The persistent state `initDatabase` reads and writes: the
`localStorage` version marker (absent on first run) and the question
store contents. -/
structure DBState where
  databaseVersion : Option String
  questions : List Question
deriving DecidableEq, Repr

/-- The outcome of `initDatabase`: the final persistent state and
whether a fetch of `questions.json` occurred. -/
structure InitResult where
  final : DBState
  didFetch : Bool
deriving DecidableEq, Repr

/-- `initDatabase` (database.js:22-99), successful-fetch path: if the
stored marker equals `DB_VERSION` and the store is non-empty, return at
once with no fetch; otherwise clear the store when the marker differs,
bulk-add the fetched records, and write the marker. -/
def initDatabase (st : DBState) (fetchedQuestions : List Question) :
    InitResult :=
  if st.databaseVersion = some DB_VERSION ∧ st.questions.length > 0 then
    ⟨st, false⟩
  else
    let cleared :=
      if st.databaseVersion ≠ some DB_VERSION then [] else st.questions
    ⟨⟨some DB_VERSION, cleared ++ fetchedQuestions⟩, true⟩

/-- The Filter State a quick-start preset installs (filter.js:419-434):
a reset, then one fixed difficulty for the easy/moderate/hard presets
and no constraint for the mix preset (or an unknown preset id). -/
def presetFilters (preset : String) : FilterState :=
  let fs := resetFilters
  if preset = "quick_25_easy" then { fs with difficulty := [.vstr "Easy"] }
  else if preset = "quick_25_moderate" then
    { fs with difficulty := [.vstr "Medium"] }
  else if preset = "quick_25_hard" then { fs with difficulty := [.vstr "Hard"] }
  else fs

/-- What a quick-start run leaves behind: the selection state, the
master list, and whether it warned or started the quiz. -/
structure QuickStartResult where
  selectedFilters : FilterState
  filteredQuestionsMasterList : List Question
  warned : Bool
  startedQuiz : Bool
deriving DecidableEq, Repr

/-- `handleQuickStart` (filter.js:418-454).  Modelled from the spec:
`shuffleArray` lives in `utils.js`, which is not among the sources; the
spec says the filtered list is "randomly shuffled", so the shuffle
outcome is the parameter `shuffled`, constrained in the theorems to be a
permutation of `applyFilters store (presetFilters preset)`.  The list is
truncated to 25; an empty sample warns and falls back to a full reset
(whose recomputation leaves the unfiltered store as master list),
otherwise `startFilteredQuiz` fires on the non-empty sample. -/
def handleQuickStart (store : List Question) (preset : String)
    (shuffled : List Question) : QuickStartResult :=
  let master := shuffled.take 25
  if master.length = 0 then
    ⟨resetFilters, applyFilters store resetFilters, true, false⟩
  else
    ⟨presetFilters preset, master, false, true⟩

/-- The session state `startFilteredQuiz` can read or change. -/
structure SessionState where
  selectedFilters : FilterState
  filteredQuestionsMasterList : List Question
deriving DecidableEq, Repr

/-- The visible outcome of `startFilteredQuiz`. -/
inductive StartAction where
  | warnedNoQuestions : StartAction
  | startQuiz : List Question → StartAction
deriving DecidableEq, Repr

/-- `startFilteredQuiz` (filter.js:342-348): warn and return when the
master list is empty, otherwise signal quiz start; either way the
session state is returned unchanged. -/
def startFilteredQuiz (st : SessionState) : SessionState × StartAction :=
  if st.filteredQuestionsMasterList.length = 0 then
    (st, .warnedNoQuestions)
  else
    (st, .startQuiz st.filteredQuestionsMasterList)

/-- Filter States reachable from the initial all-empty state through the
public operations.  A selection change on `topic` or `subTopic` carries
the guard under which its control is interactable: `updateDependentFilters`
disables and empties the topic control while no subject is selected, and
the subTopic control while no topic is selected, so the UI can only
deliver those events under the guard. -/
inductive Reach : FilterState → Prop where
  | init : Reach resetFilters
  | select {fs : FilterState} {k : FilterKey} {v : Value} : Reach fs →
      (k = .topic → fs.subject ≠ []) →
      (k = .subTopic → fs.topic ≠ []) →
      Reach (handleSelectionChange fs k v)
  | reset {fs : FilterState} : Reach fs → Reach resetFilters
  | quickStart {fs : FilterState} (store : List Question) (preset : String)
      (shuffled : List Question) : Reach fs →
      Reach (handleQuickStart store preset shuffled).selectedFilters

/-- The classification-hierarchy invariant on a Filter State. -/
def HierarchyInv (fs : FilterState) : Prop :=
  (fs.topic ≠ [] → fs.subject ≠ []) ∧ (fs.subTopic ≠ [] → fs.topic ≠ [])

/-! ## Helper lemmas -/

theorem contains_true_iff (l : List Value) (v : Value) :
    l.contains v = true ↔ v ∈ l := by simp

theorem sel_resetFilters (k : FilterKey) : resetFilters.sel k = [] := by
  cases k <;> rfl

theorem applyFilters_eq_filter (store : List Question) (fs : FilterState) :
    applyFilters store fs = store.filter fun q => decide (SpecMatches fs q) := by
  have hstep : ∀ (b : Bool) (p : Question → Bool) (l : List Question),
      (if b then l else l.filter p) = l.filter fun q => b || p q := by
    intro b p l
    cases b
    · simp
    · simp
  unfold applyFilters
  simp only [hstep]
  simp only [List.filter_filter]
  refine List.filter_congr fun q _ => ?_
  apply Bool.coe_iff_coe.mp
  simp only [Bool.and_eq_true, Bool.or_eq_true, decide_eq_true_iff,
    List.any_eq_true, List.isEmpty_iff, contains_true_iff, SpecMatches]
  constructor
  · rintro ⟨h8, h7, h6, h5, h4, h3, h2, h1⟩ k hk
    cases k <;>
      simp only [FilterState.sel, FilterState.normSel, Question.fieldValues,
        reduceIte, List.mem_singleton, List.mem_map, exists_eq_left,
        exists_exists_and_eq_and] at hk ⊢
    case subject => exact h1.resolve_left hk
    case topic => exact h2.resolve_left hk
    case subTopic => exact h3.resolve_left hk
    case difficulty => exact h4.resolve_left hk
    case questionType => exact h5.resolve_left hk
    case examName => exact h6.resolve_left hk
    case examYear => exact h7.resolve_left hk
    case tags => exact h8.resolve_left hk
  · intro h
    have h' : ∀ k : FilterKey, fs.sel k = [] ∨
        ∃ v ∈ q.fieldValues k, v ∈ fs.normSel k := by
      intro k
      by_cases hk : fs.sel k = []
      · exact Or.inl hk
      · exact Or.inr (h k hk)
    refine ⟨?_, ?_, ?_, ?_, ?_, ?_, ?_, ?_⟩
    · have := h' .tags
      simpa only [FilterState.sel, FilterState.normSel, Question.fieldValues,
        reduceIte, List.mem_map, exists_exists_and_eq_and] using this
    · have := h' .examYear
      simpa only [FilterState.sel, FilterState.normSel, Question.fieldValues,
        reduceIte, List.mem_singleton, exists_eq_left] using this
    · have := h' .examName
      simpa only [FilterState.sel, FilterState.normSel, Question.fieldValues,
        reduceIte, List.mem_singleton, exists_eq_left] using this
    · have := h' .questionType
      simpa only [FilterState.sel, FilterState.normSel, Question.fieldValues,
        reduceIte, List.mem_singleton, exists_eq_left] using this
    · have := h' .difficulty
      simpa only [FilterState.sel, FilterState.normSel, Question.fieldValues,
        reduceIte, List.mem_singleton, exists_eq_left] using this
    · have := h' .subTopic
      simpa only [FilterState.sel, FilterState.normSel, Question.fieldValues,
        reduceIte, List.mem_singleton, exists_eq_left] using this
    · have := h' .topic
      simpa only [FilterState.sel, FilterState.normSel, Question.fieldValues,
        reduceIte, List.mem_singleton, exists_eq_left] using this
    · have := h' .subject
      simpa only [FilterState.sel, FilterState.normSel, Question.fieldValues,
        reduceIte, List.mem_singleton, exists_eq_left] using this

theorem applyFilters_all_empty (store : List Question) (fs : FilterState)
    (h : ∀ k, fs.sel k = []) : applyFilters store fs = store := by
  rw [applyFilters_eq_filter]
  have : ∀ q ∈ store, decide (SpecMatches fs q) = (fun _ : Question => true) q := by
    intro q _
    simp only [decide_eq_true_iff]
    exact fun k hk => absurd (h k) hk
  rw [List.filter_congr this, List.filter_true]

/-! ## Claim theorems -/

/-- C1: for every Filter State, `applyFilters` returns exactly the store
records that, for every filter key with a non-empty selection, carry a
field value inside that key's selected set (selections within one key
OR'd, across keys AND'd); keys with empty selections impose no
constraint, and an all-empty Filter State yields the full store. -/
theorem applyFilters_spec (store : List Question) (fs : FilterState) :
    applyFilters store fs = (store.filter fun q => decide (SpecMatches fs q)) ∧
    ((∀ k, fs.sel k = []) → applyFilters store fs = store) :=
  ⟨applyFilters_eq_filter store fs, applyFilters_all_empty store fs⟩

/-- Witness for C1: on a concrete two-record store, the all-empty Filter
State keeps the whole store. -/
theorem applyFilters_spec_witness :
    (∀ k, resetFilters.sel k = []) ∧
    applyFilters
      [⟨1, "Math", "Algebra", "", "Easy", "MCQ", "GATE", 2020, []⟩,
       ⟨2, "Math", "Geometry", "", "Hard", "MCQ", "GATE", 2021, []⟩]
      resetFilters =
      [⟨1, "Math", "Algebra", "", "Easy", "MCQ", "GATE", 2020, []⟩,
       ⟨2, "Math", "Geometry", "", "Hard", "MCQ", "GATE", 2021, []⟩] :=
  ⟨fun k => sel_resetFilters k,
   (applyFilters_spec _ resetFilters).2 fun k => sel_resetFilters k⟩

theorem sel_setSel_same (fs : FilterState) (k : FilterKey) (l : List Value) :
    (fs.setSel k l).sel k = l := by
  cases k <;> rfl

theorem handleSelectionChange_subject_clears (fs : FilterState) (v : Value) :
    (handleSelectionChange fs .subject v).topic = [] ∧
    (handleSelectionChange fs .subject v).subTopic = [] := by
  simp [handleSelectionChange]

theorem foldl_subject_clears (vs : List Value) (s : FilterState)
    (h : vs ≠ []) :
    (vs.foldl (fun s u => handleSelectionChange s .subject u) s).topic = [] ∧
    (vs.foldl (fun s u => handleSelectionChange s .subject u) s).subTopic = [] := by
  induction vs generalizing s with
  | nil => exact absurd rfl h
  | cons u rest ih =>
    rcases eq_or_ne rest [] with hr | hr
    · subst hr
      simpa using handleSelectionChange_subject_clears s u
    · simpa using ih (handleSelectionChange s .subject u) hr

/-- C3: a selection change toggles the value in the key's selection
(removing the first occurrence when present, appending otherwise, hence
toggling membership of duplicate-free selections); a `subject` change
clears `topic` and `subTopic`, a `topic` change clears `subTopic`; and
after selecting a subject, then a topic, any non-empty run of subject
deselections leaves both `topic` and `subTopic` empty. -/
theorem handleSelectionChange_spec (fs : FilterState) (k : FilterKey)
    (v : Value) :
    ((handleSelectionChange fs k v).sel k =
      if (fs.sel k).contains v then (fs.sel k).erase v else fs.sel k ++ [v]) ∧
    ((fs.sel k).Nodup →
      (v ∈ (handleSelectionChange fs k v).sel k ↔ v ∉ fs.sel k)) ∧
    (k = .subject → (handleSelectionChange fs k v).topic = [] ∧
      (handleSelectionChange fs k v).subTopic = []) ∧
    (k = .topic → (handleSelectionChange fs k v).subTopic = []) ∧
    (∀ (w : Value) (vs : List Value), vs ≠ [] →
      (vs.foldl (fun s u => handleSelectionChange s .subject u)
        (handleSelectionChange (handleSelectionChange fs .subject v)
          .topic w)).topic = [] ∧
      (vs.foldl (fun s u => handleSelectionChange s .subject u)
        (handleSelectionChange (handleSelectionChange fs .subject v)
          .topic w)).subTopic = []) := by
  have htoggle : (handleSelectionChange fs k v).sel k =
      if (fs.sel k).contains v then (fs.sel k).erase v else fs.sel k ++ [v] := by
    cases k <;>
      simp [handleSelectionChange, FilterState.setSel, FilterState.sel]
  refine ⟨htoggle, ?_, ?_, ?_, ?_⟩
  · intro hnd
    rw [htoggle]
    by_cases hc : v ∈ fs.sel k
    · rw [if_pos ((contains_true_iff _ _).mpr hc)]
      simp [hnd.mem_erase_iff, hc]
    · rw [if_neg (fun hh => hc ((contains_true_iff _ _).mp hh))]
      simp [hc]
  · intro hk
    subst hk
    exact handleSelectionChange_subject_clears fs v
  · intro hk
    subst hk
    simp [handleSelectionChange, FilterState.setSel]
  · intro w vs hvs
    exact foldl_subject_clears vs _ hvs

/-- Witness for C3: toggling a difficulty value on the empty state makes
it selected; a subject change clears topic and subTopic; a topic change
clears subTopic; the select-subject, select-topic, deselect-subject
scenario ends with empty topic and subTopic. -/
theorem handleSelectionChange_spec_witness :
    (([] : List Value).Nodup ∧
      (Value.vstr "Easy" ∈
          (handleSelectionChange resetFilters .difficulty
            (.vstr "Easy")).sel .difficulty ↔
        Value.vstr "Easy" ∉ resetFilters.sel .difficulty)) ∧
    ((handleSelectionChange resetFilters .subject (.vstr "Math")).topic = [] ∧
      (handleSelectionChange resetFilters .subject (.vstr "Math")).subTopic = []) ∧
    (handleSelectionChange resetFilters .topic (.vstr "Algebra")).subTopic = [] ∧
    (([Value.vstr "Math"] : List Value) ≠ [] ∧
      ([Value.vstr "Math"].foldl (fun s u => handleSelectionChange s .subject u)
        (handleSelectionChange
          (handleSelectionChange resetFilters .subject (.vstr "Math"))
          .topic (.vstr "Algebra"))).topic = [] ∧
      ([Value.vstr "Math"].foldl (fun s u => handleSelectionChange s .subject u)
        (handleSelectionChange
          (handleSelectionChange resetFilters .subject (.vstr "Math"))
          .topic (.vstr "Algebra"))).subTopic = []) :=
  ⟨⟨List.nodup_nil,
    (handleSelectionChange_spec resetFilters .difficulty
      (.vstr "Easy")).2.1 List.nodup_nil⟩,
   (handleSelectionChange_spec resetFilters .subject (.vstr "Math")).2.2.1 rfl,
   (handleSelectionChange_spec resetFilters .topic (.vstr "Algebra")).2.2.2.1 rfl,
   ⟨by decide,
    (handleSelectionChange_spec resetFilters .subject
      (.vstr "Math")).2.2.2.2 (.vstr "Algebra") [Value.vstr "Math"] (by decide)⟩⟩

/-- C5: with a stored marker different from `DB_VERSION`, `initDatabase`
clears the store before inserting the fetched records (the final store
is exactly the fetched set) and records the new marker; with a matching
marker and a non-empty store it fetches nothing and leaves the state
unchanged. -/
theorem initDatabase_spec (st : DBState) (fetched : List Question) :
    (st.databaseVersion ≠ some DB_VERSION →
      (initDatabase st fetched).final.questions = fetched ∧
      (initDatabase st fetched).final.databaseVersion = some DB_VERSION ∧
      (initDatabase st fetched).didFetch = true) ∧
    (st.databaseVersion = some DB_VERSION → st.questions ≠ [] →
      initDatabase st fetched = ⟨st, false⟩) := by
  constructor
  · intro h
    unfold initDatabase
    rw [if_neg (fun hh => h hh.1), if_pos h]
    simp
  · intro h hq
    unfold initDatabase
    rw [if_pos ⟨h, List.length_pos.mpr hq⟩]

/-- Witness for C5: a first run (no marker) stores exactly the fetched
record; a matching marker over a non-empty store is a no-op. -/
theorem initDatabase_spec_witness :
    ((none : Option String) ≠ some DB_VERSION ∧
      (initDatabase ⟨none, []⟩
        [⟨1, "Math", "Algebra", "", "Easy", "MCQ", "GATE", 2020, []⟩]).final.questions =
        [⟨1, "Math", "Algebra", "", "Easy", "MCQ", "GATE", 2020, []⟩]) ∧
    (some "1.0" = some DB_VERSION ∧
      ([⟨1, "Math", "Algebra", "", "Easy", "MCQ", "GATE", 2020, []⟩] :
        List Question) ≠ [] ∧
      initDatabase
        ⟨some "1.0", [⟨1, "Math", "Algebra", "", "Easy", "MCQ", "GATE", 2020, []⟩]⟩
        [] =
        ⟨⟨some "1.0",
          [⟨1, "Math", "Algebra", "", "Easy", "MCQ", "GATE", 2020, []⟩]⟩, false⟩) :=
  ⟨⟨by decide, ((initDatabase_spec ⟨none, []⟩ _).1 (by decide)).1⟩,
   ⟨rfl, by decide,
    (initDatabase_spec
      ⟨some "1.0", [⟨1, "Math", "Algebra", "", "Easy", "MCQ", "GATE", 2020, []⟩]⟩
      []).2 rfl (by decide)⟩⟩

/-- C8: when the Filtered Master List is empty, `startFilteredQuiz`
warns and leaves the session state unchanged without starting a quiz;
when it is non-empty, it signals quiz start with the current master
list, again leaving the state unchanged. -/
theorem startFilteredQuiz_spec (st : SessionState) :
    (st.filteredQuestionsMasterList = [] →
      startFilteredQuiz st = (st, .warnedNoQuestions)) ∧
    (st.filteredQuestionsMasterList ≠ [] →
      startFilteredQuiz st = (st, .startQuiz st.filteredQuestionsMasterList)) := by
  constructor
  · intro h
    simp [startFilteredQuiz, h]
  · intro h
    simp [startFilteredQuiz, List.length_eq_zero, h]

/-- Witness for C8: the empty and a non-empty master list, on concrete
session states. -/
theorem startFilteredQuiz_spec_witness :
    (startFilteredQuiz ⟨resetFilters, []⟩ =
      (⟨resetFilters, []⟩, .warnedNoQuestions)) ∧
    (([⟨1, "Math", "Algebra", "", "Easy", "MCQ", "GATE", 2020, []⟩] :
        List Question) ≠ [] ∧
      startFilteredQuiz
        ⟨resetFilters, [⟨1, "Math", "Algebra", "", "Easy", "MCQ", "GATE", 2020, []⟩]⟩ =
        (⟨resetFilters, [⟨1, "Math", "Algebra", "", "Easy", "MCQ", "GATE", 2020, []⟩]⟩,
          .startQuiz [⟨1, "Math", "Algebra", "", "Easy", "MCQ", "GATE", 2020, []⟩])) :=
  ⟨(startFilteredQuiz_spec ⟨resetFilters, []⟩).1 rfl,
   ⟨by decide,
    (startFilteredQuiz_spec
      ⟨resetFilters,
       [⟨1, "Math", "Algebra", "", "Easy", "MCQ", "GATE", 2020, []⟩]⟩).2
      (by decide)⟩⟩

theorem presetFilters_hard :
    presetFilters "quick_25_hard" =
      ⟨[], [], [], [Value.vstr "Hard"], [], [], [], []⟩ := by
  decide

theorem specMatches_hard_iff (q : Question) :
    SpecMatches ⟨[], [], [], [Value.vstr "Hard"], [], [], [], []⟩ q ↔
      q.difficulty = "Hard" := by
  constructor
  · intro h
    have hd := h .difficulty (by decide)
    simpa [FilterState.normSel, FilterState.sel, Question.fieldValues] using hd
  · intro h k hk
    cases k <;>
      simp_all [FilterState.sel, FilterState.normSel, Question.fieldValues,
        SpecMatches]

/-- C6: quick-start with the hard preset, over a store containing at
least one record of difficulty "Hard", installs a non-empty master list
of at most 25 records, all of difficulty "Hard" and all drawn from the
store, and then starts the quiz; `shuffled` stands for the spec-modelled
random shuffle of the filtered list. -/
theorem handleQuickStart_hard_spec (store shuffled : List Question)
    (hperm : shuffled.Perm (applyFilters store (presetFilters "quick_25_hard")))
    (hhard : ∃ q ∈ store, q.difficulty = "Hard") :
    (handleQuickStart store "quick_25_hard"
        shuffled).filteredQuestionsMasterList ≠ [] ∧
    (handleQuickStart store "quick_25_hard"
        shuffled).filteredQuestionsMasterList.length ≤ 25 ∧
    (∀ q ∈ (handleQuickStart store "quick_25_hard"
        shuffled).filteredQuestionsMasterList,
      q.difficulty = "Hard" ∧ q ∈ store) ∧
    (handleQuickStart store "quick_25_hard" shuffled).startedQuiz = true := by
  rw [presetFilters_hard, applyFilters_eq_filter] at hperm
  obtain ⟨q0, hq0, hd0⟩ := hhard
  have hq0f : q0 ∈ store.filter fun q =>
      decide (SpecMatches ⟨[], [], [], [Value.vstr "Hard"], [], [], [], []⟩ q) :=
    List.mem_filter.mpr ⟨hq0, decide_eq_true ((specMatches_hard_iff q0).mpr hd0)⟩
  have hsne : shuffled ≠ [] := by
    intro hnil
    have hlen := hperm.length_eq
    rw [hnil] at hlen
    have : store.filter (fun q =>
        decide (SpecMatches ⟨[], [], [], [Value.vstr "Hard"], [], [], [], []⟩ q)) =
        [] := List.eq_nil_of_length_eq_zero hlen.symm
    rw [this] at hq0f
    exact absurd hq0f (List.not_mem_nil q0)
  have hmne : shuffled.take 25 ≠ [] := by
    intro h0
    rcases List.take_eq_nil_iff.mp h0 with h | h
    · exact absurd h (by decide)
    · exact hsne h
  have hres : handleQuickStart store "quick_25_hard" shuffled =
      ⟨presetFilters "quick_25_hard", shuffled.take 25, false, true⟩ := by
    unfold handleQuickStart
    rw [if_neg fun h0 => hmne (List.length_eq_zero.mp h0)]
  rw [hres]
  refine ⟨hmne, List.length_take_le _ _, ?_, rfl⟩
  intro q hq
  have hq' : q ∈ shuffled := List.take_subset _ _ hq
  have hq'' := List.mem_filter.mp (hperm.mem_iff.mp hq')
  exact ⟨(specMatches_hard_iff q).mp (of_decide_eq_true hq''.2), hq''.1⟩

/-- Witness for C6: a one-record store whose only record is Hard; the
identity shuffle is a permutation of the filtered list, and quick-start
starts the quiz on a non-empty master list. -/
theorem handleQuickStart_hard_spec_witness :
    ([⟨2, "Math", "Geometry", "", "Hard", "MCQ", "GATE", 2021, []⟩] :
        List Question).Perm
      (applyFilters [⟨2, "Math", "Geometry", "", "Hard", "MCQ", "GATE", 2021, []⟩]
        (presetFilters "quick_25_hard")) ∧
    (∃ q ∈ ([⟨2, "Math", "Geometry", "", "Hard", "MCQ", "GATE", 2021, []⟩] :
        List Question), q.difficulty = "Hard") ∧
    (handleQuickStart [⟨2, "Math", "Geometry", "", "Hard", "MCQ", "GATE", 2021, []⟩]
        "quick_25_hard"
        [⟨2, "Math", "Geometry", "", "Hard", "MCQ", "GATE", 2021, []⟩]).startedQuiz =
      true ∧
    (handleQuickStart [⟨2, "Math", "Geometry", "", "Hard", "MCQ", "GATE", 2021, []⟩]
        "quick_25_hard"
        [⟨2, "Math", "Geometry", "", "Hard", "MCQ", "GATE", 2021, []⟩]).filteredQuestionsMasterList ≠
      [] :=
  ⟨by decide, by decide,
   (handleQuickStart_hard_spec _ _ (by decide) (by decide)).2.2.2,
   (handleQuickStart_hard_spec _ _ (by decide) (by decide)).1⟩

/-- C7: a quick-start whose preset matches no record in the store warns,
resets every selection set to empty, and does not start a quiz (the
recomputation of the fallback reset leaves the unfiltered store as the
master list). -/
theorem handleQuickStart_no_match_spec (store : List Question)
    (preset : String) (shuffled : List Question)
    (hmatch : applyFilters store (presetFilters preset) = [])
    (hperm : shuffled.Perm (applyFilters store (presetFilters preset))) :
    handleQuickStart store preset shuffled =
      ⟨resetFilters, applyFilters store resetFilters, true, false⟩ ∧
    (∀ k, (handleQuickStart store preset shuffled).selectedFilters.sel k = []) ∧
    (handleQuickStart store preset shuffled).warned = true ∧
    (handleQuickStart store preset shuffled).startedQuiz = false := by
  rw [hmatch] at hperm
  have hnil : shuffled = [] := hperm.eq_nil
  have hres : handleQuickStart store preset shuffled =
      ⟨resetFilters, applyFilters store resetFilters, true, false⟩ := by
    unfold handleQuickStart
    rw [hnil]
    rfl
  refine ⟨hres, ?_, ?_, ?_⟩
  · intro k
    rw [hres]
    exact sel_resetFilters k
  · rw [hres]
  · rw [hres]

/-- Witness for C7: quick-start with the hard preset over the empty
store warns, leaves every selection empty, and starts nothing. -/
theorem handleQuickStart_no_match_spec_witness :
    applyFilters [] (presetFilters "quick_25_hard") = [] ∧
    ([] : List Question).Perm (applyFilters [] (presetFilters "quick_25_hard")) ∧
    (∀ k, (handleQuickStart [] "quick_25_hard" []).selectedFilters.sel k = []) ∧
    (handleQuickStart [] "quick_25_hard" []).warned = true ∧
    (handleQuickStart [] "quick_25_hard" []).startedQuiz = false :=
  ⟨by decide, by decide,
   (handleQuickStart_no_match_spec [] "quick_25_hard" [] (by decide) (by decide)).2.1,
   (handleQuickStart_no_match_spec [] "quick_25_hard" [] (by decide) (by decide)).2.2.1,
   (handleQuickStart_no_match_spec [] "quick_25_hard" [] (by decide) (by decide)).2.2.2⟩

theorem updateDependentFilters_eq (store : List Question) (fs : FilterState) :
    updateDependentFilters store fs =
      ⟨fs.subject.isEmpty,
       if fs.subject.isEmpty then [] else
         sortJS (uniqueKeysOf
           (store.filter fun q => fs.subject.contains (Value.vstr q.subject))
           .topic),
       fs.topic.isEmpty,
       if fs.topic.isEmpty then [] else
         sortJS (uniqueKeysOf
           ((store.filter fun q =>
               fs.subject.contains (Value.vstr q.subject)).filter
             fun q => fs.topic.contains (Value.vstr q.topic))
           .subTopic)⟩ := by
  unfold updateDependentFilters
  by_cases h1 : fs.subject = [] <;> by_cases h2 : fs.topic = [] <;>
    simp [h1, h2]

theorem isEmpty_false_of_ne_nil {l : List Value} (h : l ≠ []) :
    l.isEmpty = false := by
  cases he : l.isEmpty
  · rfl
  · exact absurd (List.isEmpty_iff.mp he) h

/-- C4: with an empty subject selection the topic control is disabled
and has no options; otherwise it is enabled and its options are exactly
the distinct topic values of records with a selected subject, sorted
ascending and duplicate-free.  The subTopic options additionally require
a selected topic, and the control is disabled with no options while the
topic selection is empty. -/
theorem updateDependentFilters_spec (store : List Question) (fs : FilterState) :
    (fs.subject = [] →
      (updateDependentFilters store fs).topicDisabled = true ∧
      (updateDependentFilters store fs).topicOptions = []) ∧
    (fs.subject ≠ [] →
      (updateDependentFilters store fs).topicDisabled = false ∧
      List.Sorted valLE (updateDependentFilters store fs).topicOptions ∧
      (updateDependentFilters store fs).topicOptions.Nodup ∧
      (∀ v, v ∈ (updateDependentFilters store fs).topicOptions ↔
        ∃ q ∈ store, Value.vstr q.subject ∈ fs.subject ∧
          v = Value.vstr q.topic)) ∧
    (fs.topic = [] →
      (updateDependentFilters store fs).subTopicDisabled = true ∧
      (updateDependentFilters store fs).subTopicOptions = []) ∧
    (fs.topic ≠ [] →
      (updateDependentFilters store fs).subTopicDisabled = false ∧
      List.Sorted valLE (updateDependentFilters store fs).subTopicOptions ∧
      (updateDependentFilters store fs).subTopicOptions.Nodup ∧
      (∀ v, v ∈ (updateDependentFilters store fs).subTopicOptions ↔
        ∃ q ∈ store, Value.vstr q.subject ∈ fs.subject ∧
          Value.vstr q.topic ∈ fs.topic ∧ v = Value.vstr q.subTopic)) := by
  rw [updateDependentFilters_eq]
  refine ⟨?_, ?_, ?_, ?_⟩
  · intro hs
    simp [hs]
  · intro hs
    have hse := isEmpty_false_of_ne_nil hs
    refine ⟨by simp [hse], ?_, ?_, ?_⟩
    · simpa [hse, sortJS] using
        List.sorted_insertionSort valLE (uniqueKeysOf
          (store.filter fun q => fs.subject.contains (Value.vstr q.subject))
          .topic)
    · have := (List.perm_insertionSort valLE (uniqueKeysOf
        (store.filter fun q => fs.subject.contains (Value.vstr q.subject))
        .topic)).nodup_iff.mpr (List.nodup_dedup _)
      simpa [hse, sortJS, uniqueKeysOf] using this
    · intro v
      simp only [hse, Bool.false_eq_true, if_false, sortJS,
        List.mem_insertionSort, uniqueKeysOf, List.mem_dedup, List.mem_flatMap,
        List.mem_filter, contains_true_iff, Question.fieldValues,
        List.mem_singleton]
      exact ⟨fun ⟨q, ⟨hq, hqs⟩, hv⟩ => ⟨q, hq, hqs, hv⟩,
             fun ⟨q, hq, hqs, hv⟩ => ⟨q, ⟨hq, hqs⟩, hv⟩⟩
  · intro ht
    simp [ht]
  · intro ht
    have hte := isEmpty_false_of_ne_nil ht
    refine ⟨by simp [hte], ?_, ?_, ?_⟩
    · simpa [hte, sortJS] using
        List.sorted_insertionSort valLE (uniqueKeysOf
          ((store.filter fun q =>
              fs.subject.contains (Value.vstr q.subject)).filter
            fun q => fs.topic.contains (Value.vstr q.topic))
          .subTopic)
    · have := (List.perm_insertionSort valLE (uniqueKeysOf
        ((store.filter fun q =>
            fs.subject.contains (Value.vstr q.subject)).filter
          fun q => fs.topic.contains (Value.vstr q.topic))
        .subTopic)).nodup_iff.mpr (List.nodup_dedup _)
      simpa [hte, sortJS, uniqueKeysOf] using this
    · intro v
      simp only [hte, Bool.false_eq_true, if_false, sortJS,
        List.mem_insertionSort, uniqueKeysOf, List.mem_dedup, List.mem_flatMap,
        List.mem_filter, contains_true_iff, Question.fieldValues,
        List.mem_singleton]
      exact ⟨fun ⟨q, ⟨⟨hq, hqs⟩, hqt⟩, hv⟩ => ⟨q, hq, hqs, hqt, hv⟩,
             fun ⟨q, hq, hqs, hqt, hv⟩ => ⟨q, ⟨⟨hq, hqs⟩, hqt⟩, hv⟩⟩

/-- Witness for C4 on the spec's two-record example: with no subject
selected the topic control is disabled and empty; with subject Math
selected it is enabled and offers Algebra and Geometry sorted; with no
topic selected the subTopic control is disabled and empty. -/
theorem updateDependentFilters_spec_witness :
    ((resetFilters.subject = []) ∧
      (updateDependentFilters
        [⟨1, "Math", "Algebra", "", "Easy", "MCQ", "GATE", 2020, []⟩,
         ⟨2, "Math", "Geometry", "", "Hard", "MCQ", "GATE", 2021, []⟩]
        resetFilters).topicDisabled = true ∧
      (updateDependentFilters
        [⟨1, "Math", "Algebra", "", "Easy", "MCQ", "GATE", 2020, []⟩,
         ⟨2, "Math", "Geometry", "", "Hard", "MCQ", "GATE", 2021, []⟩]
        resetFilters).topicOptions = []) ∧
    (([Value.vstr "Math"] : List Value) ≠ [] ∧
      (updateDependentFilters
        [⟨1, "Math", "Algebra", "", "Easy", "MCQ", "GATE", 2020, []⟩,
         ⟨2, "Math", "Geometry", "", "Hard", "MCQ", "GATE", 2021, []⟩]
        ⟨[.vstr "Math"], [], [], [], [], [], [], []⟩).topicDisabled = false ∧
      (Value.vstr "Geometry" ∈ (updateDependentFilters
        [⟨1, "Math", "Algebra", "", "Easy", "MCQ", "GATE", 2020, []⟩,
         ⟨2, "Math", "Geometry", "", "Hard", "MCQ", "GATE", 2021, []⟩]
        ⟨[.vstr "Math"], [], [], [], [], [], [], []⟩).topicOptions ↔
        ∃ q ∈ ([⟨1, "Math", "Algebra", "", "Easy", "MCQ", "GATE", 2020, []⟩,
                ⟨2, "Math", "Geometry", "", "Hard", "MCQ", "GATE", 2021, []⟩] :
               List Question),
          Value.vstr q.subject ∈ ([Value.vstr "Math"] : List Value) ∧
            Value.vstr "Geometry" = Value.vstr q.topic)) :=
  ⟨⟨rfl,
    ((updateDependentFilters_spec _ resetFilters).1 rfl).1,
    ((updateDependentFilters_spec _ resetFilters).1 rfl).2⟩,
   ⟨by decide,
    ((updateDependentFilters_spec _
      ⟨[.vstr "Math"], [], [], [], [], [], [], []⟩).2.1 (by decide)).1,
    ((updateDependentFilters_spec _
      ⟨[.vstr "Math"], [], [], [], [], [], [], []⟩).2.1
        (by decide)).2.2.2 (Value.vstr "Geometry")⟩⟩

theorem matchesKey_iff (fs : FilterState) (k : FilterKey) (q : Question) :
    matchesKey fs k q = true ↔
      (fs.sel k ≠ [] → ∃ v ∈ q.fieldValues k, v ∈ fs.normSel k) := by
  unfold matchesKey
  simp [List.any_eq_true, or_iff_not_imp_left]

theorem baseMatches_iff (fs : FilterState) (K : FilterKey) (q : Question) :
    baseMatches fs K q = true ↔ SpecBase fs K q := by
  unfold baseMatches SpecBase
  simp only [List.all_eq_true, Bool.or_eq_true, beq_iff_eq]
  constructor
  · intro h k hne hsel
    rcases h k (mem_filterKeys k) with heq | hm
    · exact absurd heq hne
    · exact (matchesKey_iff fs k q).mp hm hsel
  · intro h k _
    by_cases hk : k = K
    · exact Or.inl hk
    · exact Or.inr ((matchesKey_iff fs k q).mpr (h k hk))

theorem baseMatches_eq_decide (fs : FilterState) (K : FilterKey)
    (q : Question) : baseMatches fs K q = decide (SpecBase fs K q) := by
  apply Bool.coe_iff_coe.mp
  rw [baseMatches_iff, decide_eq_true_iff]

theorem lookup_map_self (l : List Value) (f : Value → Nat) (v : Value) :
    (l.map fun o => (o, f o)).lookup v =
      if v ∈ l then some (f v) else none := by
  induction l with
  | nil => simp
  | cons a l ih =>
    by_cases hv : v = a
    · subst hv
      simp [List.lookup]
    · have hbeq : (v == a) = false := beq_eq_false_iff_ne.mpr hv
      simp only [List.map_cons, List.lookup, hbeq]
      rw [ih]
      simp [List.mem_cons, hv]

theorem mem_allOptionsFor_examYear (store : List Question) (fs : FilterState)
    {v : Value} (hv : v ∈ allOptionsFor store fs .examYear) :
    ∃ n : Int, v = .vint n := by
  unfold allOptionsFor uniqueKeysOf at hv
  simp only [List.mem_filter, List.mem_dedup, List.mem_flatMap,
    Question.fieldValues, List.mem_singleton] at hv
  obtain ⟨⟨q, _, hveq⟩, _⟩ := hv
  exact ⟨q.examYear, hveq⟩

theorem valueForQuery_of_mem (store : List Question) (fs : FilterState)
    (K : FilterKey) {v : Value} (hv : v ∈ allOptionsFor store fs K) :
    valueForQuery K v = v := by
  unfold valueForQuery
  by_cases hK : K = .examYear
  · subst hK
    obtain ⟨n, rfl⟩ := mem_allOptionsFor_examYear store fs hv
    simp [parseIntValue]
  · simp [hK]

theorem countFor_eq_specCount (store : List Question) (fs : FilterState)
    (K : FilterKey) {v : Value} (hvq : valueForQuery K v = v) :
    countFor store fs K v = specCount store fs K v := by
  unfold countFor specCount
  rw [hvq, List.filter_filter]
  have h : ∀ q ∈ store,
      ((q.fieldValues K).contains v && baseMatches fs K q) =
        (decide (SpecBase fs K q) && (q.fieldValues K).contains v) := by
    intro q _
    rw [baseMatches_eq_decide]
    exact Bool.and_comm _ _
  rw [List.filter_congr h]

/-- C2: for every filter key `K` the enumerated options are exactly the
distinct non-falsy values of `K`'s field among records matching every
other key's current constraint, and every non-falsy value's recorded
count (0 when unrecorded) equals the number of records matching those
other-key constraints together with the single constraint that the
record carries that value on `K`'s field. -/
theorem updateAllFilterCounts_spec (store : List Question) (fs : FilterState)
    (K : FilterKey) :
    (∀ v, v ∈ allOptionsFor store fs K ↔
      (v.truthy = true ∧ ∃ q ∈ store, SpecBase fs K q ∧ v ∈ q.fieldValues K)) ∧
    (∀ v, v.truthy = true →
      countsLookup (updateAllFilterCountsAndAvailability store fs K) v =
        specCount store fs K v) := by
  have hmem : ∀ v, v ∈ allOptionsFor store fs K ↔
      (v.truthy = true ∧ ∃ q ∈ store, SpecBase fs K q ∧ v ∈ q.fieldValues K) := by
    intro v
    unfold allOptionsFor uniqueKeysOf
    simp only [List.mem_filter, List.mem_dedup, List.mem_flatMap]
    constructor
    · rintro ⟨⟨q, ⟨hq, hb⟩, hv⟩, ht⟩
      exact ⟨ht, q, hq, (baseMatches_iff fs K q).mp hb, hv⟩
    · rintro ⟨ht, q, hq, hb, hv⟩
      exact ⟨⟨q, ⟨hq, (baseMatches_iff fs K q).mpr hb⟩, hv⟩, ht⟩
  refine ⟨hmem, ?_⟩
  intro v ht
  unfold updateAllFilterCountsAndAvailability countsLookup
  rw [lookup_map_self]
  by_cases hv : v ∈ allOptionsFor store fs K
  · rw [if_pos hv]
    simpa using countFor_eq_specCount store fs K (valueForQuery_of_mem store fs K hv)
  · rw [if_neg hv]
    have hzero : specCount store fs K v = 0 := by
      unfold specCount
      rw [List.length_eq_zero, List.filter_eq_nil_iff]
      intro q hq hp
      simp only [Bool.and_eq_true] at hp
      obtain ⟨hd, hc⟩ := hp
      exact hv ((hmem v).mpr
        ⟨ht, q, hq, of_decide_eq_true hd, (contains_true_iff _ _).mp hc⟩)
    simp [hzero]

/-- Witness for C2 on the spec's example: with subject Math and
difficulty Hard selected, the topic options are enumerated and the count
for Geometry (a non-falsy value) matches the spec count. -/
theorem updateAllFilterCounts_spec_witness :
    (Value.vstr "Geometry").truthy = true ∧
    countsLookup
      (updateAllFilterCountsAndAvailability
        [⟨1, "Math", "Algebra", "", "Easy", "MCQ", "GATE", 2020, []⟩,
         ⟨2, "Math", "Geometry", "", "Hard", "MCQ", "GATE", 2021, []⟩]
        ⟨[.vstr "Math"], [], [], [.vstr "Hard"], [], [], [], []⟩ .topic)
      (.vstr "Geometry") =
      specCount
        [⟨1, "Math", "Algebra", "", "Easy", "MCQ", "GATE", 2020, []⟩,
         ⟨2, "Math", "Geometry", "", "Hard", "MCQ", "GATE", 2021, []⟩]
        ⟨[.vstr "Math"], [], [], [.vstr "Hard"], [], [], [], []⟩ .topic
        (.vstr "Geometry") ∧
    countsLookup
      (updateAllFilterCountsAndAvailability
        [⟨1, "Math", "Algebra", "", "Easy", "MCQ", "GATE", 2020, []⟩,
         ⟨2, "Math", "Geometry", "", "Hard", "MCQ", "GATE", 2021, []⟩]
        ⟨[.vstr "Math"], [], [], [.vstr "Hard"], [], [], [], []⟩ .topic)
      (.vstr "Geometry") = 1 :=
  ⟨rfl,
   (updateAllFilterCounts_spec
     [⟨1, "Math", "Algebra", "", "Easy", "MCQ", "GATE", 2020, []⟩,
      ⟨2, "Math", "Geometry", "", "Hard", "MCQ", "GATE", 2021, []⟩]
     ⟨[.vstr "Math"], [], [], [.vstr "Hard"], [], [], [], []⟩ .topic).2
     (.vstr "Geometry") rfl,
   by decide⟩

/-- C9 counterexample: `difficulty` is rendered as a segmented control,
and `updateFilterUI` never disables a segmented option: a displayed
"Hard" option with computed count 0 that is not selected (unchecked, and
the selection is empty) keeps `disabled = false` after the update,
though the claim requires it to be marked unavailable. -/
theorem updateFilterUI_segmented_counterexample :
    controlKindOf .difficulty = .segmented ∧
    countsLookup [] (Value.vstr "Hard") = 0 ∧
    (updateFilterUI (controlKindOf .difficulty) [] []
        [⟨.vstr "Hard", false, false, "", true, false⟩]).map OptionUI.disabled =
      [false] := by
  decide

/-- C9 (amended): a multiselect option is disabled after `updateFilterUI`
exactly when its computed count is 0 and its checkbox is unchecked, and
its visibility is untouched; a segmented-control option (`difficulty`,
`questionType`) keeps its previous disabled state — the count-0 rule does
not apply to segmented keys — and also stays visible. -/
theorem updateFilterUI_disabled_spec (kind : ControlKind)
    (selected : List Value) (counts : List (Value × Nat))
    (options : List OptionUI) (o : OptionUI) :
    ((updateFilterUIOption .multiselect selected counts o).disabled = true ↔
      (countsLookup counts o.value = 0 ∧ o.checked = false)) ∧
    (updateFilterUIOption .multiselect selected counts o).visible = o.visible ∧
    (updateFilterUIOption .segmented selected counts o).disabled = o.disabled ∧
    (updateFilterUIOption .segmented selected counts o).visible = o.visible ∧
    updateFilterUI kind selected counts options =
      options.map (updateFilterUIOption kind selected counts) := by
  refine ⟨?_, rfl, rfl, rfl, rfl⟩
  simp [updateFilterUIOption]

theorem resetFilters_inv : HierarchyInv resetFilters :=
  ⟨fun h => absurd rfl h, fun h => absurd rfl h⟩

theorem presetFilters_no_topic (preset : String) :
    (presetFilters preset).topic = [] ∧ (presetFilters preset).subTopic = [] := by
  unfold presetFilters
  split_ifs <;> simp [resetFilters]

theorem hsc_preserves_inv (fs : FilterState) (k : FilterKey) (v : Value)
    (ih : HierarchyInv fs) (hg1 : k = .topic → fs.subject ≠ [])
    (hg2 : k = .subTopic → fs.topic ≠ []) :
    HierarchyInv (handleSelectionChange fs k v) := by
  cases k
  case subject =>
    exact ⟨fun h => absurd (handleSelectionChange_subject_clears fs v).1 h,
           fun h => absurd (handleSelectionChange_subject_clears fs v).2 h⟩
  case topic =>
    have hs : (handleSelectionChange fs .topic v).subject = fs.subject := by
      simp [handleSelectionChange, FilterState.setSel]
    have hst : (handleSelectionChange fs .topic v).subTopic = [] := by
      simp [handleSelectionChange, FilterState.setSel]
    refine ⟨fun _ => ?_, fun h => absurd hst h⟩
    rw [hs]
    exact hg1 rfl
  case subTopic =>
    have hs : (handleSelectionChange fs .subTopic v).subject = fs.subject := by
      simp [handleSelectionChange, FilterState.setSel]
    have ht : (handleSelectionChange fs .subTopic v).topic = fs.topic := by
      simp [handleSelectionChange, FilterState.setSel]
    refine ⟨fun h => ?_, fun _ => ?_⟩
    · rw [hs]
      exact ih.1 (by rwa [ht] at h)
    · rw [ht]
      exact hg2 rfl
  all_goals
    refine ⟨fun h => ?_, fun h => ?_⟩ <;>
      simp only [handleSelectionChange, FilterState.setSel, FilterState.sel,
        reduceIte, reduceCtorEq] at h ⊢ <;>
      first
        | exact ih.1 h
        | exact ih.2 h

/-- C10 counterexample: a single selection-change operation on `topic`,
applied to the initial all-empty Filter State, is a public-operation
step that yields a non-empty topic selection with an empty subject
selection, so the state reached violates the classification-hierarchy
invariant. -/
theorem reach_hierarchy_counterexample :
    (handleSelectionChange resetFilters .topic (.vstr "Algebra")).topic ≠ [] ∧
    (handleSelectionChange resetFilters .topic (.vstr "Algebra")).subject = [] ∧
    ¬ HierarchyInv (handleSelectionChange resetFilters .topic (.vstr "Algebra")) := by
  refine ⟨by decide, by decide, ?_⟩
  simp only [HierarchyInv]
  decide

/-- C10 (amended): every Filter State reachable from the initial
all-empty state via the public operations — with selection changes on
`topic` and `subTopic` only fired while their controls are interactable,
that is, with a non-empty subject (resp. topic) selection, as
`updateDependentFilters` otherwise disables and empties those controls —
satisfies the classification-hierarchy invariant: a non-empty topic
selection implies a non-empty subject selection and a non-empty subTopic
selection implies a non-empty topic selection. -/
theorem reach_hierarchyInv (fs : FilterState) (h : Reach fs) :
    HierarchyInv fs := by
  induction h with
  | init => exact resetFilters_inv
  | @select fs k v _ hg1 hg2 ih => exact hsc_preserves_inv fs k v ih hg1 hg2
  | reset => exact resetFilters_inv
  | @quickStart fs store preset shuffled _ _ =>
    by_cases hc : (shuffled.take 25).length = 0
    · simp only [handleQuickStart, hc, if_pos rfl]
      exact resetFilters_inv
    · simp only [handleQuickStart, if_neg hc]
      exact ⟨fun h => absurd (presetFilters_no_topic preset).1 h,
             fun h => absurd (presetFilters_no_topic preset).2 h⟩

/-- Witness for C10: the state reached by selecting subject Math then
topic Algebra (with the topic guard satisfied) satisfies the hierarchy
invariant. -/
theorem reach_hierarchyInv_witness :
    HierarchyInv (handleSelectionChange
      (handleSelectionChange resetFilters .subject (.vstr "Math"))
      .topic (.vstr "Algebra")) :=
  reach_hierarchyInv _
    (Reach.select
      (Reach.select Reach.init
        (fun hh => FilterKey.noConfusion hh)
        (fun hh => FilterKey.noConfusion hh))
      (fun _ => by decide)
      (fun hh => FilterKey.noConfusion hh))

end QuizLM
